import Mathlib

/-!
Shallow embedding of the Electric-Propeller-CFD-Analysis numerical core:
`src/naca_geometry.py` (function `naca4_coordinates`) and
`src/flow_solver.py` (class `FlowSolver` with methods `naca4_geometry`
and `compute_flow_field`).

Numbers are modelled over an arbitrary `LinearOrderedField K` (instantiated
at `ℚ` for concrete evaluations and at `ℝ` for analytic facts); the library
routines `np.sqrt`, `np.sin`, `np.cos`, `np.arctan` and the constant `np.pi`
are passed as explicit parameters and instantiated with `Real.sqrt`,
`Real.sin`, `Real.cos`, `Real.arctan`, `Real.pi` where their analytic
properties matter.

Error semantics: scalar Python float division by zero raises
`ZeroDivisionError` (modelled by `pydiv`); `int(...)` on a non-numeric
string raises `ValueError`; indexing a too-short string raises
`IndexError`.  NumPy whole-array arithmetic (used in `flow_solver.py`)
does not raise on regular arithmetic, so it is modelled by total field
operations.  The repository defines no `InvalidDesignation`,
`DegenerateCamberPosition` or `InvalidGridResolution` error anywhere.
-/

/-- Errors that the Python code can actually raise in the modelled paths. -/
inductive PyErr : Type where
  | valueError : PyErr
  | zeroDivisionError : PyErr
  | indexError : PyErr
deriving DecidableEq

variable {K : Type} [LinearOrderedField K]

/-- Python scalar float division: `a / b` raises `ZeroDivisionError` when
`b == 0`, otherwise returns the quotient. -/
def pydiv (a b : K) : Except PyErr K :=
  if b = 0 then .error .zeroDivisionError else .ok (a / b)

/-- Python `int(s)` restricted to the digit-string fragment exercised by the
code: succeeds iff the string is nonempty and all characters are decimal
digits (the full Python parser also accepts signs and whitespace, which no
designation in the spec or the claims uses), raising `ValueError` otherwise. -/
def parseIntStr (cs : List Char) : Except PyErr ℕ :=
  if cs ≠ [] ∧ cs.all Char.isDigit then
    .ok (cs.foldl (fun a c => 10 * a + (c.toNat - 48)) 0)
  else .error .valueError

/-- Model of `np.linspace(a, b, n)` (endpoint included): `n` uniformly spaced
samples from `a` to `b`; for `n = 1` NumPy returns `[a]`. -/
def linspace (a b : K) (n : ℕ) : List K :=
  if n = 1 then [a]
  else (List.range n).map (fun (i : ℕ) => a + (b - a) * (i : K) / ((n : K) - 1))

/-- Elementwise combination of three equally long sequences (NumPy
elementwise array arithmetic on three operands). -/
def zipWith3 {α β γ δ : Type} (f : α → β → γ → δ) : List α → List β → List γ → List δ
  | a :: as, b :: bs, c :: cs => f a b c :: zipWith3 f as bs cs
  | _, _, _ => []

/-- Thickness distribution of `naca_geometry.py` lines 37-38 (and the
identical line in `flow_solver.py`):
`yt = 5*t*(0.2969*sqrt(x) - 0.1260*x - 0.3516*x**2 + 0.2843*x**3 - 0.1015*x**4)`. -/
def ytFormula (sqrt : K → K) (t x : K) : K :=
  5 * t * (0.2969 * sqrt x - 0.1260 * x - 0.3516 * x ^ 2 +
    0.2843 * x ^ 3 - 0.1015 * x ^ 4)

/-- The thickness array: the thickness formula mapped over the chord samples. -/
def thicknessDist (sqrt : K → K) (t : K) (x : List K) : List K :=
  x.map (ytFormula sqrt t)

/-- Forward-branch camber value, `naca_geometry.py` line 46:
`yc[i] = (m / p**2) * (2*p*x[i] - x[i]**2)`. -/
def camberFwd (m p x : K) : K := m / p ^ 2 * (2 * p * x - x ^ 2)

/-- Forward-branch camber slope, `naca_geometry.py` line 47:
`dyc_dx[i] = (2*m / p**2) * (p - x[i])`. -/
def slopeFwd (m p x : K) : K := 2 * m / p ^ 2 * (p - x)

/-- Aft-branch camber value, `naca_geometry.py` line 50:
`yc[i] = (m / (1-p)**2) * ((1 - 2*p) + 2*p*x[i] - x[i]**2)`. -/
def camberAft (m p x : K) : K := m / (1 - p) ^ 2 * ((1 - 2 * p) + 2 * p * x - x ^ 2)

/-- Aft-branch camber slope, `naca_geometry.py` line 51:
`dyc_dx[i] = (2*m / (1-p)**2) * (p - x[i])`. -/
def slopeAft (m p x : K) : K := 2 * m / (1 - p) ^ 2 * (p - x)

/-- One iteration of the camber loop of `naca_geometry.py` lines 44-51: for a
single chord sample `x`, returns `(yc[i], dyc_dx[i])`, with Python scalar
division (which raises `ZeroDivisionError` on a zero denominator). -/
def camberPoint (m p x : K) : Except PyErr (K × K) :=
  if x ≤ p then do
    let c ← pydiv m (p ^ 2)
    let d ← pydiv (2 * m) (p ^ 2)
    pure (c * (2 * p * x - x ^ 2), d * (p - x))
  else do
    let c ← pydiv m ((1 - p) ^ 2)
    let d ← pydiv (2 * m) ((1 - p) ^ 2)
    pure (c * ((1 - 2 * p) + 2 * p * x - x ^ 2), d * (p - x))

/-- The camber value the loop stores at a sample `x` (forward branch for
`x ≤ p`, aft branch otherwise), once no division error occurs. -/
def camberSel (m p x : K) : K :=
  if x ≤ p then camberFwd m p x else camberAft m p x

/-- The camber slope the loop stores at a sample `x`. -/
def slopeSel (m p x : K) : K :=
  if x ≤ p then slopeFwd m p x else slopeAft m p x

/-- The camber loop of `naca_geometry.py` lines 44-51 (`for i in range(len(x))`),
run left to right over the chord samples; a raised error at sample `i` aborts
the whole call, exactly as the Python exception would. -/
def camberLoop (m p : K) : List K → Except PyErr (List (K × K))
  | [] => .ok []
  | x :: xs => do
    let hd ← camberPoint m p x
    let tl ← camberLoop m p xs
    .ok (hd :: tl)

/-- All arrays computed by `naca4_coordinates`.  The Python function returns
the tuple `(xu, yu, xl, yl, x, yc)`; the remaining fields (`yt`, `dyc_dx`,
`theta`) are its named intermediate arrays, recorded here so that the
specification can speak about them. -/
structure NacaOutput (K : Type) where
  x : List K
  yt : List K
  yc : List K
  dyc_dx : List K
  theta : List K
  xu : List K
  yu : List K
  xl : List K
  yl : List K
deriving DecidableEq

/-- Model of `naca4_coordinates(number, n_points)` from `src/naca_geometry.py`,
acting on the character sequence of the designation string:
decode `m = int(number[0])/100`, `p = int(number[1])/10`,
`t = int(number[2:])/100` (no validation of length, range or digit count
beyond what `int` itself enforces), then compute the chord samples, the
thickness distribution, the piecewise camber line and slope, the slope
angle `theta = arctan(dyc_dx)` and the perpendicular-offset surfaces
`xu = x - yt*sin(theta)`, `yu = yc + yt*cos(theta)`,
`xl = x + yt*sin(theta)`, `yl = yc - yt*cos(theta)`. -/
def naca4_coordinatesL (sqrt sin cos atan : K → K) (chars : List Char)
    (n_points : ℕ) : Except PyErr (NacaOutput K) :=
  match chars with
  | c0 :: c1 :: rest => do
    let d0 ← parseIntStr [c0]
    let d1 ← parseIntStr [c1]
    let d2 ← parseIntStr rest
    let m : K := (d0 : K) / 100
    let p : K := (d1 : K) / 10
    let t : K := (d2 : K) / 100
    let x := linspace (0 : K) 1 n_points
    let yt := thicknessDist sqrt t x
    let pairs ← camberLoop m p x
    let yc := pairs.map Prod.fst
    let dyc := pairs.map Prod.snd
    let theta := dyc.map atan
    let xu := zipWith3 (fun xi yti th => xi - yti * sin th) x yt theta
    let yu := zipWith3 (fun yci yti th => yci + yti * cos th) yc yt theta
    let xl := zipWith3 (fun xi yti th => xi + yti * sin th) x yt theta
    let yl := zipWith3 (fun yci yti th => yci - yti * cos th) yc yt theta
    .ok ⟨x, yt, yc, dyc, theta, xu, yu, xl, yl⟩
  | _ => .error .indexError

/-- `naca4_coordinates(number, n_points)` on the Python string input: the
string is its sequence of characters. -/
def naca4_coordinates (sqrt sin cos atan : K → K) (number : String)
    (n_points : ℕ) : Except PyErr (NacaOutput K) :=
  naca4_coordinatesL sqrt sin cos atan number.toList n_points

/-- State of `FlowSolver.__init__`: stores the airfoil code, the angle of
attack converted to radians (`np.radians`), and the Reynolds number. -/
structure FlowSolver (K : Type) where
  code : String
  alpha : K
  Re : K
deriving DecidableEq

/-- `FlowSolver(airfoil_code, alpha_deg, reynolds)`:
`self.alpha = np.radians(alpha_deg) = alpha_deg * pi / 180`. -/
def FlowSolver.init (pi : K) (airfoil_code : String) (alpha_deg reynolds : K) :
    FlowSolver K :=
  ⟨airfoil_code, alpha_deg * pi / 180, reynolds⟩

/-- Model of `FlowSolver.naca4_geometry(n_points)`: hard-coded
`m, p, t = 0.04, 0.4, 0.12` (the stored `self.code` is never read), thickness
by the shared formula, camber by `np.where(x <= p, forward, aft)` which
selects elementwise between the two branch formulas (NumPy array division
does not raise). Returns `(x, yc, yt)`. -/
def FlowSolver.naca4_geometry (sqrt : K → K) (_s : FlowSolver K) (n_points : ℕ) :
    List K × List K × List K :=
  let m : K := 0.04
  let p : K := 0.4
  let t : K := 0.12
  let x := linspace (0 : K) 1 n_points
  let yt := thicknessDist sqrt t x
  let yc := x.map (fun xi => if xi ≤ p then camberFwd m p xi else camberAft m p xi)
  (x, yc, yt)

/-- Squared distance from the quarter-chord vortex center, `flow_solver.py`
line 52: `r2 = (X - 0.25)**2 + (Y)**2`. -/
def r2At (x y : K) : K := (x - 0.25) ^ 2 + y ^ 2

/-- Vortex-induced x-velocity at one grid point, `flow_solver.py` line 55:
`u_vortex = (gamma / (2*np.pi)) * (Y / (r2 + 0.05))` with `gamma = 2.5`. -/
def u_vortexAt (pi x y : K) : K := 2.5 / (2 * pi) * (y / (r2At x y + 0.05))

/-- Vortex-induced y-velocity at one grid point, `flow_solver.py` line 56:
`v_vortex = -(gamma / (2*np.pi)) * ((X - 0.25) / (r2 + 0.05))`. -/
def v_vortexAt (pi x y : K) : K := -(2.5 / (2 * pi)) * ((x - 0.25) / (r2At x y + 0.05))

/-- Elementwise combination of two matrices (NumPy binary array arithmetic). -/
def map2 {α β γ : Type} (f : α → β → γ) (A : List α) (B : List β) : List γ :=
  List.zipWith f A B

/-- Elementwise combination of two nested matrices. -/
def mat2 {α β γ : Type} (f : α → β → γ) (A : List (List α)) (B : List (List β)) :
    List (List γ) :=
  List.zipWith (List.zipWith f) A B

/-- Elementwise map over a nested matrix (NumPy unary/scalar array arithmetic). -/
def matMap {α β : Type} (f : α → β) (A : List (List α)) : List (List β) :=
  A.map (List.map f)

/-- The five arrays returned by `FlowSolver.compute_flow_field`. -/
structure FlowOut (K : Type) where
  X : List (List K)
  Y : List (List K)
  U : List (List K)
  V : List (List K)
  Cp : List (List K)
deriving DecidableEq

/-- Model of `FlowSolver.compute_flow_field(grid_res)`:
`np.linspace` raises `ValueError` for a negative sample count (and returns
empty arrays for zero); `X, Y = np.meshgrid(x_grid, y_grid)` gives
`X[j][i] = x_grid[i]`, `Y[j][i] = y_grid[j]`; then the free stream
`(cos alpha, sin alpha)` is superposed with the regularized vortex field,
`Vel_Mag = sqrt(U**2 + V**2)` and `Cp = 1 - Vel_Mag**2`.
Returns `(X, Y, U, V, Cp)`. -/
def FlowSolver.compute_flow_field (sin cos sqrt : K → K) (pi : K)
    (s : FlowSolver K) (grid_res : ℤ) : Except PyErr (FlowOut K) :=
  if grid_res < 0 then .error .valueError else
  let g := grid_res.toNat
  let x_grid := linspace (-0.5 : K) 1.5 g
  let y_grid := linspace (-0.8 : K) 0.8 g
  let X := y_grid.map (fun _ => x_grid)
  let Y := y_grid.map (fun yj => x_grid.map (fun _ => yj))
  let u_inf := cos s.alpha
  let v_inf := sin s.alpha
  let u_vortex := mat2 (u_vortexAt pi) X Y
  let v_vortex := mat2 (v_vortexAt pi) X Y
  let U := matMap (fun u => u_inf + u) u_vortex
  let V := matMap (fun v => v_inf + v) v_vortex
  let velMag := mat2 (fun u v => sqrt (u ^ 2 + v ^ 2)) U V
  let Cp := matMap (fun vm => 1 - vm ^ 2) velMag
  .ok ⟨X, Y, U, V, Cp⟩

/-! ### Helper lemmas about the embedded operations -/

lemma linspace_length (a b : K) (n : ℕ) : (linspace a b n).length = n := by
  unfold linspace
  split
  · simp [*]
  · rw [List.length_map, List.length_range]

lemma linspace_getD (a b : K) {n i : ℕ} (h : i < n) :
    (linspace a b n).getD i 0 = a + (b - a) * (i : K) / ((n : K) - 1) := by
  unfold linspace
  split
  · rename_i h1
    subst h1
    have hi0 : i = 0 := by omega
    subst hi0
    simp
  · rw [List.getD_eq_getElem?_getD, List.getElem?_map, List.getElem?_range h]
    simp

lemma mem_linspace01 (n : ℕ) : ∀ y ∈ linspace (0 : K) 1 n, 0 ≤ y ∧ y ≤ 1 := by
  intro y hy
  unfold linspace at hy
  split at hy
  · simp only [List.mem_singleton] at hy
    subst hy
    exact ⟨le_refl 0, zero_le_one⟩
  · rename_i h1
    simp only [List.mem_map, List.mem_range] at hy
    obtain ⟨i, hi, rfl⟩ := hy
    have hn2 : 2 ≤ n := by omega
    have hn1 : (0 : K) < (n : K) - 1 := by
      have h2 : (2 : K) ≤ (n : K) := by exact_mod_cast hn2
      linarith
    have hile : (i : K) ≤ (n : K) - 1 := by
      have hi1 : (i : K) + 1 ≤ (n : K) := by exact_mod_cast hi
      linarith
    rw [show (0 : K) + (1 - 0) * (i : K) / ((n : K) - 1) = (i : K) / ((n : K) - 1) by
      ring]
    exact ⟨div_nonneg (Nat.cast_nonneg i) hn1.le, (div_le_one hn1).mpr hile⟩

lemma camberPoint_ok {m p : K} (hp : p ≠ 0) (hp1 : p ≠ 1) (x : K) :
    camberPoint m p x = .ok (if x ≤ p then (camberFwd m p x, slopeFwd m p x)
      else (camberAft m p x, slopeAft m p x)) := by
  have hp2 : p ^ 2 ≠ 0 := pow_ne_zero _ hp
  have hq2 : (1 - p) ^ 2 ≠ 0 := pow_ne_zero _ (sub_ne_zero.mpr hp1.symm)
  unfold camberPoint
  split
  · simp only [pydiv, if_neg hp2, camberFwd, slopeFwd]
    rfl
  · simp only [pydiv, if_neg hq2, camberAft, slopeAft]
    rfl

lemma camberLoop_ok {m p : K} (hp : p ≠ 0) (hp1 : p ≠ 1) (xs : List K) :
    camberLoop m p xs = .ok (xs.map (fun x =>
      if x ≤ p then (camberFwd m p x, slopeFwd m p x)
      else (camberAft m p x, slopeAft m p x))) := by
  induction xs with
  | nil => rfl
  | cons x xs ih =>
    simp only [camberLoop, camberPoint_ok hp hp1, ih, List.map_cons]
    rfl

lemma camberFwd_zero (p x : K) : camberFwd 0 p x = 0 := by
  simp [camberFwd]

lemma camberAft_zero (p x : K) : camberAft 0 p x = 0 := by
  simp [camberAft]

lemma slopeFwd_zero (p x : K) : slopeFwd 0 p x = 0 := by
  simp [slopeFwd]

lemma slopeAft_zero (p x : K) : slopeAft 0 p x = 0 := by
  simp [slopeAft]

lemma camberLoop_zero {p : K} (hp : p ≠ 0) (hp1 : p ≠ 1) (xs : List K) :
    camberLoop 0 p xs = .ok (xs.map (fun _ => ((0 : K), (0 : K)))) := by
  rw [camberLoop_ok hp hp1]
  congr 1
  refine List.map_congr_left (fun x _ => ?_)
  split <;> simp [camberFwd, camberAft, slopeFwd, slopeAft]

lemma zipWith3_map₃ {α β₁ β₂ β₃ δ : Type} (f : β₁ → β₂ → β₃ → δ)
    (g₁ : α → β₁) (g₂ : α → β₂) (g₃ : α → β₃) (l : List α) :
    zipWith3 f (l.map g₁) (l.map g₂) (l.map g₃) =
      l.map (fun a => f (g₁ a) (g₂ a) (g₃ a)) := by
  induction l with
  | nil => rfl
  | cons a l ih => simp [zipWith3, ih]

lemma length_mat2 {α β γ : Type} (f : α → β → γ) (A : List (List α))
    (B : List (List β)) : (mat2 f A B).length = min A.length B.length :=
  List.length_zipWith ..

lemma rows_mat2 {α β γ : Type} {g : ℕ} (f : α → β → γ) :
    ∀ (A : List (List α)) (B : List (List β)),
      (∀ r ∈ A, r.length = g) → (∀ r ∈ B, r.length = g) →
      ∀ r ∈ mat2 f A B, r.length = g := by
  intro A
  induction A with
  | nil => intro B _ _ r hr; simp [mat2] at hr
  | cons a A ih =>
    intro B hA hB r hr
    cases B with
    | nil => simp [mat2] at hr
    | cons b B =>
      simp only [mat2, List.zipWith_cons_cons, List.mem_cons] at hr
      rcases hr with rfl | hr
      · rw [List.length_zipWith, hA a (by simp), hB b (by simp)]
        exact min_self g
      · exact ih B (fun r h => hA r (by simp [h])) (fun r h => hB r (by simp [h])) r hr

lemma length_matMap {α β : Type} (f : α → β) (A : List (List α)) :
    (matMap f A).length = A.length := List.length_map ..

lemma rows_matMap {α β : Type} {g : ℕ} (f : α → β) (A : List (List α))
    (hA : ∀ r ∈ A, r.length = g) : ∀ r ∈ matMap f A, r.length = g := by
  intro r hr
  simp only [matMap, List.mem_map] at hr
  obtain ⟨s, hs, rfl⟩ := hr
  simpa using hA s hs

lemma digit_toNat_bounds {c : Char} (h : c.isDigit = true) :
    48 ≤ c.toNat ∧ c.toNat ≤ 57 := by
  simp [Char.isDigit] at h
  exact ⟨h.1, h.2⟩

lemma toNat_ne_of_ne_zero_char {c : Char} (h0 : c ≠ '0') : c.toNat ≠ 48 := by
  intro hc
  apply h0
  apply Char.ext
  apply UInt32.ext
  rw [show ('0' : Char).val.toNat = 48 from rfl]
  exact hc

lemma parseIntStr_digit {c : Char} (h : c.isDigit = true) :
    parseIntStr [c] = .ok (c.toNat - 48) := by
  simp [parseIntStr, h]

lemma parseIntStr_digits {cs : List Char} (hne : cs ≠ [])
    (hd : cs.all Char.isDigit = true) :
    parseIntStr cs = .ok (cs.foldl (fun a c => 10 * a + (c.toNat - 48)) 0) := by
  simp [parseIntStr, hne, hd]

lemma ok_bind {ε α β : Type} (a : α) (f : α → Except ε β) :
    (Except.ok a >>= f) = f a := rfl

lemma zipWith3_self_map_map {α β₂ β₃ δ : Type} (f : α → β₂ → β₃ → δ)
    (g₂ : α → β₂) (g₃ : α → β₃) (l : List α) :
    zipWith3 f l (l.map g₂) (l.map g₃) = l.map (fun a => f a (g₂ a) (g₃ a)) := by
  induction l with
  | nil => rfl
  | cons a l ih => simp [zipWith3, ih]

/-- Full evaluation of `naca4_coordinates` on a designation whose first two
characters are digits, whose tail is a nonempty digit string, and whose
camber-position parameter `p` avoids both division-by-zero denominators:
every output array is the pointwise image of the chord samples. -/
lemma naca4_coordinatesL_eval (sqrt sin cos atan : K → K) {c0 c1 : Char}
    (rest : List Char) (h0 : c0.isDigit = true) (h1 : c1.isDigit = true)
    (hr : rest ≠ []) (hrd : rest.all Char.isDigit = true)
    (hp0 : ((c1.toNat - 48 : ℕ) : K) / 10 ≠ 0)
    (hp1 : ((c1.toNat - 48 : ℕ) : K) / 10 ≠ 1) (n : ℕ) :
    naca4_coordinatesL sqrt sin cos atan (c0 :: c1 :: rest) n =
      (let m : K := ((c0.toNat - 48 : ℕ) : K) / 100
       let p : K := ((c1.toNat - 48 : ℕ) : K) / 10
       let t : K := ((rest.foldl (fun a c => 10 * a + (c.toNat - 48)) 0 : ℕ) : K) / 100
       let x := linspace (0 : K) 1 n
       .ok ⟨x, x.map (ytFormula sqrt t),
        x.map (camberSel m p), x.map (slopeSel m p),
        x.map (fun xi => atan (slopeSel m p xi)),
        x.map (fun xi => xi - ytFormula sqrt t xi * sin (atan (slopeSel m p xi))),
        x.map (fun xi => camberSel m p xi + ytFormula sqrt t xi * cos (atan (slopeSel m p xi))),
        x.map (fun xi => xi + ytFormula sqrt t xi * sin (atan (slopeSel m p xi))),
        x.map (fun xi => camberSel m p xi - ytFormula sqrt t xi * cos (atan (slopeSel m p xi)))⟩) := by
  have hloop := camberLoop_ok (m := ((c0.toNat - 48 : ℕ) : K) / 100) hp0 hp1
    (linspace (0 : K) 1 n)
  have hsel : (fun x => if x ≤ ((c1.toNat - 48 : ℕ) : K) / 10 then
      (camberFwd (((c0.toNat - 48 : ℕ) : K) / 100) (((c1.toNat - 48 : ℕ) : K) / 10) x,
       slopeFwd (((c0.toNat - 48 : ℕ) : K) / 100) (((c1.toNat - 48 : ℕ) : K) / 10) x)
      else
      (camberAft (((c0.toNat - 48 : ℕ) : K) / 100) (((c1.toNat - 48 : ℕ) : K) / 10) x,
       slopeAft (((c0.toNat - 48 : ℕ) : K) / 100) (((c1.toNat - 48 : ℕ) : K) / 10) x)) =
      (fun x => (camberSel (((c0.toNat - 48 : ℕ) : K) / 100) (((c1.toNat - 48 : ℕ) : K) / 10) x,
        slopeSel (((c0.toNat - 48 : ℕ) : K) / 100) (((c1.toNat - 48 : ℕ) : K) / 10) x)) := by
    funext x
    by_cases hx : x ≤ ((c1.toNat - 48 : ℕ) : K) / 10 <;>
      simp [camberSel, slopeSel, hx]
  simp only [naca4_coordinatesL, parseIntStr_digit h0, parseIntStr_digit h1,
    parseIntStr_digits hr hrd, ok_bind, hloop, hsel, thicknessDist]
  simp only [List.map_map]
  simp only [zipWith3_self_map_map, zipWith3_map₃]
  simp [Function.comp_def]

lemma error_bind {ε α β : Type} (e : ε) (f : α → Except ε β) :
    (Except.error e >>= f) = .error e := rfl

/-! ### Claim theorems -/

/-- Claim C9: the `reynolds` parameter is stored by the `FlowSolver`
configuration but does not influence any computed output: two solvers
differing only in their Reynolds value produce identical
`compute_flow_field` and `naca4_geometry` results for every angle of attack
and every resolution. -/
theorem reynolds_inert (sin cos sqrt : K → K) (pi : K) (code : String)
    (alpha_deg Re1 Re2 : K) (g : ℤ) (n : ℕ) :
    (FlowSolver.init pi code alpha_deg Re1).Re = Re1 ∧
    FlowSolver.compute_flow_field sin cos sqrt pi
        (FlowSolver.init pi code alpha_deg Re1) g =
      FlowSolver.compute_flow_field sin cos sqrt pi
        (FlowSolver.init pi code alpha_deg Re2) g ∧
    FlowSolver.naca4_geometry sqrt (FlowSolver.init pi code alpha_deg Re1) n =
      FlowSolver.naca4_geometry sqrt (FlowSolver.init pi code alpha_deg Re2) n :=
  ⟨rfl, rfl, rfl⟩

/-- Claim C10: `FlowSolver.naca4_geometry` ignores the airfoil code supplied
to the constructor: two solvers differing only in `airfoil_code` return
identical `(x, yc, yt)` for every point count, and the returned camber and
thickness arrays always come from the hard-coded NACA 4412 parameters
`m = 0.04`, `p = 0.4`, `t = 0.12`. -/
theorem airfoil_code_ignored (sqrt : K → K) (pi : K) (code1 code2 : String)
    (alpha_deg Re : K) (n : ℕ) :
    FlowSolver.naca4_geometry sqrt (FlowSolver.init pi code1 alpha_deg Re) n =
      FlowSolver.naca4_geometry sqrt (FlowSolver.init pi code2 alpha_deg Re) n ∧
    (FlowSolver.naca4_geometry sqrt (FlowSolver.init pi code1 alpha_deg Re) n).1 =
      linspace (0 : K) 1 n ∧
    (FlowSolver.naca4_geometry sqrt (FlowSolver.init pi code1 alpha_deg Re) n).2.1 =
      (linspace (0 : K) 1 n).map (camberSel 0.04 0.4) ∧
    (FlowSolver.naca4_geometry sqrt (FlowSolver.init pi code1 alpha_deg Re) n).2.2 =
      (linspace (0 : K) 1 n).map (ytFormula sqrt 0.12) :=
  ⟨rfl, rfl, rfl, rfl⟩

/-- Claim C4 (code behaviour at the failing input): `compute_flow_field`
with `grid_res = 0` does not raise any error at all — it silently returns
five empty arrays — and no nonnegative grid resolution ever fails.  The
repository defines no `InvalidGridResolution` error. -/
theorem compute_flow_field_grid_zero (sin cos sqrt : K → K) (pi : K)
    (s : FlowSolver K) :
    FlowSolver.compute_flow_field sin cos sqrt pi s 0 = .ok ⟨[], [], [], [], []⟩ ∧
    ∀ g : ℕ, (FlowSolver.compute_flow_field sin cos sqrt pi s (g : ℤ)).isOk = true := by
  constructor
  · rfl
  · intro g
    simp only [FlowSolver.compute_flow_field,
      if_neg (not_lt.mpr (Int.natCast_nonneg g))]
    rfl

/-- Claim C6: the forward-branch and aft-branch camber formulas used by
`naca4_coordinates` agree at the split point `x = p`: both evaluate to `m`
whenever `0 < p < 1`. -/
theorem camber_branches_agree (m p : K) (hp0 : 0 < p) (hp1 : p < 1) :
    camberFwd m p p = m ∧ camberAft m p p = m := by
  have h0 : p ≠ 0 := ne_of_gt hp0
  have h1 : (1 : K) - p ≠ 0 := sub_ne_zero.mpr (ne_of_gt hp1)
  constructor
  · unfold camberFwd
    field_simp
    left
    ring
  · unfold camberAft
    field_simp
    left
    ring

/-- Witness for claim C6 at the NACA 4412 parameters `m = 0.04`, `p = 0.4`:
the hypotheses `0 < p` and `p < 1` hold and both branch values at the split
equal `m = 0.04` exactly (hence they agree to within `1e-9`). -/
theorem camber_branches_agree_witness :
    (0 : ℚ) < 0.4 ∧ (0.4 : ℚ) < 1 ∧
      (camberFwd (0.04 : ℚ) 0.4 0.4 = 0.04 ∧ camberAft (0.04 : ℚ) 0.4 0.4 = 0.04) :=
  ⟨by norm_num, by norm_num,
    camber_branches_agree (0.04 : ℚ) 0.4 (by norm_num) (by norm_num)⟩

lemma linspace_one (a b : K) : linspace a b 1 = [a] := rfl

lemma eval_0012 :
    naca4_coordinates (K := ℚ) id id id id "0012" 1 = .error .zeroDivisionError := by
  show naca4_coordinatesL (K := ℚ) id id id id ['0', '0', '1', '2'] 1 = _
  simp only [naca4_coordinatesL,
    show parseIntStr ['0'] = Except.ok 0 from rfl,
    show parseIntStr ['1', '2'] = Except.ok 12 from rfl,
    ok_bind, linspace_one]
  norm_num [camberLoop, camberPoint, pydiv, ok_bind, error_bind]

lemma eval_4012 :
    naca4_coordinates (K := ℚ) id id id id "4012" 1 = .error .zeroDivisionError := by
  show naca4_coordinatesL (K := ℚ) id id id id ['4', '0', '1', '2'] 1 = _
  simp only [naca4_coordinatesL,
    show parseIntStr ['4'] = Except.ok 4 from rfl,
    show parseIntStr ['0'] = Except.ok 0 from rfl,
    show parseIntStr ['1', '2'] = Except.ok 12 from rfl,
    ok_bind, linspace_one]
  norm_num [camberLoop, camberPoint, pydiv, ok_bind, error_bind]

lemma eval_44a2 :
    naca4_coordinates (K := ℚ) id id id id "44a2" 1 = .error .valueError := rfl

lemma eval_441 :
    (naca4_coordinates (K := ℚ) id id id id "441" 1).isOk = true := by
  show (naca4_coordinatesL (K := ℚ) id id id id ['4', '4', '1'] 1).isOk = true
  rw [naca4_coordinatesL_eval (K := ℚ) id id id id ['1'] (by decide) (by decide)
    (by simp) (by decide)
    (by norm_num [show ('4'.toNat - 48 : ℕ) = 4 from rfl])
    (by norm_num [show ('4'.toNat - 48 : ℕ) = 4 from rfl]) 1]
  rfl

/-- Claim C1 (code behaviour at the failing inputs): for a designation whose
camber-position digit is `0`, `naca4_coordinates` evaluates `m / p**2` with
`p = 0` at the very first chord sample and raises `ZeroDivisionError` — both
for the symmetric designation `"0012"` (where the claim requires `yc ≡ 0`
without evaluating the division) and for `"4012"` with nonzero camber (where
the claim requires a `DegenerateCamberPosition` error).  No
`DegenerateCamberPosition` error and no symmetric special case exist. -/
theorem naca4_p0_division_crash :
    naca4_coordinates (K := ℚ) id id id id "0012" 1 = .error .zeroDivisionError ∧
    naca4_coordinates (K := ℚ) id id id id "4012" 1 = .error .zeroDivisionError :=
  ⟨eval_0012, eval_4012⟩

/-- Claim C2 (code behaviour at the failing inputs): `naca4_coordinates`
performs no designation validation of its own. `"44a2"` fails with the raw
`ValueError` of `int("a2")` (there is no `InvalidDesignation` error in the
repository), and the 3-character designation `"441"`, which the claim
requires to be rejected, is silently accepted (parsed as `m = 0.04`,
`p = 0.4`, `t = 0.01`) and produces coordinate output. -/
theorem naca4_no_designation_validation :
    naca4_coordinates (K := ℚ) id id id id "44a2" 1 = .error .valueError ∧
    (naca4_coordinates (K := ℚ) id id id id "441" 1).isOk = true :=
  ⟨eval_44a2, eval_441⟩

/-- Claim C5: the regularized denominator `r2 + 0.05` is strictly positive at
every point of the plane (in particular at every grid point, including the
vortex center `(0.25, 0)` where `r2 = 0`), and both induced velocity
components are bounded by the explicit constant `(2.5/(2*pi)) * 3`. -/
theorem vortex_regularization_bounded :
    r2At (0.25 : ℝ) 0 = 0 ∧
    ∀ x y : ℝ, 0 < r2At x y + 0.05 ∧
      |u_vortexAt Real.pi x y| ≤ 2.5 / (2 * Real.pi) * 3 ∧
      |v_vortexAt Real.pi x y| ≤ 2.5 / (2 * Real.pi) * 3 := by
  have hc : (0 : ℝ) < 2.5 / (2 * Real.pi) := by positivity
  refine ⟨by norm_num [r2At], fun x y => ?_⟩
  have hd : (0 : ℝ) < r2At x y + 0.05 := by
    rw [r2At]
    nlinarith [sq_nonneg (x - 0.25), sq_nonneg y]
  refine ⟨hd, ?_, ?_⟩
  · have hb : |y| / (r2At x y + 0.05) ≤ 3 := by
      rw [div_le_iff₀ hd, r2At]
      nlinarith [sq_nonneg (|y| - 1/6), sq_nonneg (x - 0.25), sq_abs y]
    calc |u_vortexAt Real.pi x y|
        = 2.5 / (2 * Real.pi) * (|y| / (r2At x y + 0.05)) := by
          rw [u_vortexAt, abs_mul, abs_div, abs_div, abs_of_pos hd,
            abs_of_nonneg (by norm_num : (0 : ℝ) ≤ 2.5),
            abs_of_pos (by positivity : (0 : ℝ) < 2 * Real.pi)]
      _ ≤ 2.5 / (2 * Real.pi) * 3 := mul_le_mul_of_nonneg_left hb hc.le
  · have hb : |x - 0.25| / (r2At x y + 0.05) ≤ 3 := by
      rw [div_le_iff₀ hd, r2At]
      nlinarith [sq_nonneg (|x - 0.25| - 1/6), sq_nonneg y, sq_abs (x - 0.25)]
    calc |v_vortexAt Real.pi x y|
        = 2.5 / (2 * Real.pi) * (|x - 0.25| / (r2At x y + 0.05)) := by
          rw [v_vortexAt, abs_mul, abs_neg, abs_div, abs_div, abs_of_pos hd,
            abs_of_nonneg (by norm_num : (0 : ℝ) ≤ 2.5),
            abs_of_pos (by positivity : (0 : ℝ) < 2 * Real.pi)]
      _ ≤ 2.5 / (2 * Real.pi) * 3 := mul_le_mul_of_nonneg_left hb hc.le

lemma ytFormula_sqrt_nonneg {t x : ℝ} (ht : 0 ≤ t) (hx0 : 0 ≤ x) (hx1 : x ≤ 1) :
    0 ≤ ytFormula Real.sqrt t x := by
  rw [ytFormula]
  set s := Real.sqrt x with hs
  have h0 : 0 ≤ s := Real.sqrt_nonneg x
  have h1 : s ≤ 1 := Real.sqrt_le_one.mpr hx1
  have hsq : s ^ 2 = x := by rw [hs]; exact Real.sq_sqrt hx0
  rw [← hsq]
  have h1s : (0 : ℝ) ≤ 1 - s := by linarith
  have e2 : s ^ 2 ≤ 1 := pow_le_one₀ h0 h1
  have e3 : s ^ 3 ≤ s := by
    calc s ^ 3 ≤ s ^ 1 := pow_le_pow_of_le_one h0 h1 (by norm_num)
      _ = s := pow_one s
  have e4 : s ^ 4 ≤ s ^ 2 := pow_le_pow_of_le_one h0 h1 (by norm_num)
  have hR : (0 : ℝ) ≤ 0.2948 + 0.1688 * s + 0.1688 * s ^ 2
      - 0.1828 * s ^ 3 - 0.1828 * s ^ 4 := by
    nlinarith [e3, e4]
  have ht1 : (0 : ℝ) ≤ s * (1 - s) * (0.2948 + 0.1688 * s + 0.1688 * s ^ 2
      - 0.1828 * s ^ 3 - 0.1828 * s ^ 4) :=
    mul_nonneg (mul_nonneg h0 h1s) hR
  have ht2 : (0 : ℝ) ≤ s ^ 6 * (1 - s ^ 2) :=
    mul_nonneg (pow_nonneg h0 6) (by linarith)
  have key : (0 : ℝ) ≤ 0.2969 * s - 0.1260 * s ^ 2 - 0.3516 * (s ^ 2) ^ 2
      + 0.2843 * (s ^ 2) ^ 3 - 0.1015 * (s ^ 2) ^ 4 := by
    nlinarith [ht1, ht2, h0]
  have h5t : (0 : ℝ) ≤ 5 * t := by linarith
  exact mul_nonneg h5t key

/-- Claim C7: the thickness distribution of `naca4_coordinates` is the
closed-form `yt(x) = 5t(0.2969*sqrt(x) - 0.1260x - 0.3516x^2 + 0.2843x^3 -
0.1015x^4)` at every chord sample; for every `t > 0` it gives `yt(0) = 0`
exactly and `yt(x) ≥ 0` on all of `[0, 1]`, hence every entry of the
computed thickness array is nonnegative (shown concretely for the
designation `"4412"`, whose array is the formula with `t = 0.12` mapped
over the chord samples). -/
theorem thickness_formula_spec (t : ℝ) (ht : 0 < t) :
    ytFormula Real.sqrt t 0 = 0 ∧
    (∀ x : ℝ, 0 ≤ x → x ≤ 1 → 0 ≤ ytFormula Real.sqrt t x) ∧
    (∀ n : ℕ, ∀ y ∈ thicknessDist Real.sqrt t (linspace 0 1 n), 0 ≤ y) ∧
    (∀ n : ℕ, ∃ out : NacaOutput ℝ,
      naca4_coordinates Real.sqrt Real.sin Real.cos Real.arctan "4412" n = .ok out ∧
      out.yt = (linspace (0 : ℝ) 1 n).map (ytFormula Real.sqrt 0.12) ∧
      ∀ y ∈ out.yt, 0 ≤ y) := by
  have hfold : (List.foldl (fun a c => 10 * a + (c.toNat - 48)) 0 ['1', '2'] : ℕ) = 12 :=
    rfl
  refine ⟨?_, ?_, ?_, ?_⟩
  · rw [ytFormula, Real.sqrt_zero]
    norm_num
  · intro x hx0 hx1
    exact ytFormula_sqrt_nonneg ht.le hx0 hx1
  · intro n y hy
    simp only [thicknessDist, List.mem_map] at hy
    obtain ⟨xi, hxi, rfl⟩ := hy
    obtain ⟨hx0, hx1⟩ := mem_linspace01 n xi hxi
    exact ytFormula_sqrt_nonneg ht.le hx0 hx1
  · intro n
    show ∃ out : NacaOutput ℝ,
      naca4_coordinatesL Real.sqrt Real.sin Real.cos Real.arctan
        ['4', '4', '1', '2'] n = .ok out ∧ _
    rw [naca4_coordinatesL_eval (K := ℝ) Real.sqrt Real.sin Real.cos Real.arctan
      ['1', '2'] (by decide) (by decide) (by simp) (by decide)
      (by norm_num [show ('4'.toNat - 48 : ℕ) = 4 from rfl])
      (by norm_num [show ('4'.toNat - 48 : ℕ) = 4 from rfl]) n]
    refine ⟨_, rfl, ?_, ?_⟩
    · show (linspace (0 : ℝ) 1 n).map
        (ytFormula Real.sqrt (((List.foldl (fun a c => 10 * a + (c.toNat - 48)) 0
          ['1', '2'] : ℕ) : ℝ) / 100)) = _
      rw [hfold, show ((12 : ℕ) : ℝ) / 100 = 0.12 by norm_num]
    · intro y hy
      simp only [List.mem_map] at hy
      obtain ⟨xi, hxi, rfl⟩ := hy
      obtain ⟨hx0, hx1⟩ := mem_linspace01 n xi hxi
      exact ytFormula_sqrt_nonneg (by positivity) hx0 hx1

/-- Witness for claim C7 at `t = 0.12` (the NACA 4412 thickness): the
hypothesis `0 < t` holds, `yt(0) = 0`, and `yt` is nonnegative on `[0, 1]`. -/
theorem thickness_formula_spec_witness :
    (0 : ℝ) < 0.12 ∧ ytFormula Real.sqrt (0.12 : ℝ) 0 = 0 ∧
      ∀ x : ℝ, 0 ≤ x → x ≤ 1 → 0 ≤ ytFormula Real.sqrt (0.12 : ℝ) x :=
  ⟨by norm_num, (thickness_formula_spec 0.12 (by norm_num)).1,
    (thickness_formula_spec 0.12 (by norm_num)).2.1⟩

/-- Counterexample to claim C3 as stated ("any second digit p, e.g. 0012"):
for the symmetric designation `"0012"` the code returns no surfaces at all —
it raises `ZeroDivisionError` at the first chord sample, because the
camber-position digit is `0`. -/
theorem symmetric_0012_no_output :
    naca4_coordinates (K := ℚ) id id id id "0012" 1 = .error .zeroDivisionError ∧
    (naca4_coordinates (K := ℚ) id id id id "0012" 1).isOk = false := by
  refine ⟨eval_0012, ?_⟩
  rw [eval_0012]
  rfl

/-- Claim C3 (amended): for a symmetric designation whose camber-position
digit is nonzero — first digit `'0'`, second digit a digit other than `'0'`,
tail a nonempty digit string — `naca4_coordinates` returns camber `yc = 0`
and camber slope `0` at every chord sample, and the upper and lower surfaces
are mirror images about `y = 0`: `xu = xl` and `yu = -yl` entrywise.  The
hypothesis `sin (atan 0) = 0` is satisfied by the real `np.sin`/`np.arctan`
pair the code uses. -/
theorem symmetric_section_mirror (sqrt sin cos atan : K → K)
    (hsin : sin (atan 0) = 0) {c1 : Char} (rest : List Char)
    (h1 : c1.isDigit = true) (h10 : c1 ≠ '0')
    (hr : rest ≠ []) (hrd : rest.all Char.isDigit = true) (n : ℕ) :
    ∃ out : NacaOutput K,
      naca4_coordinates sqrt sin cos atan (String.mk ('0' :: c1 :: rest)) n = .ok out ∧
      out.yc = List.replicate n 0 ∧
      out.dyc_dx = List.replicate n 0 ∧
      out.xu = out.xl ∧
      out.yu = out.yl.map (fun v => -v) := by
  have hb := digit_toNat_bounds h1
  have hne := toNat_ne_of_ne_zero_char h10
  have hk1 : 1 ≤ c1.toNat - 48 := by omega
  have hk9 : c1.toNat - 48 ≤ 9 := by omega
  have hkK1 : (1 : K) ≤ ((c1.toNat - 48 : ℕ) : K) := by exact_mod_cast hk1
  have hkK9 : ((c1.toNat - 48 : ℕ) : K) ≤ 9 := by exact_mod_cast hk9
  have hp0 : ((c1.toNat - 48 : ℕ) : K) / 10 ≠ 0 :=
    ne_of_gt (div_pos (by linarith) (by norm_num))
  have hp1 : ((c1.toNat - 48 : ℕ) : K) / 10 ≠ 1 := by
    refine ne_of_lt ?_
    rw [div_lt_one (by norm_num : (0 : K) < 10)]
    linarith
  show ∃ out : NacaOutput K,
    naca4_coordinatesL sqrt sin cos atan ('0' :: c1 :: rest) n = .ok out ∧ _
  rw [naca4_coordinatesL_eval sqrt sin cos atan rest (by decide) h1 hr hrd hp0 hp1 n]
  have hm : ((('0'.toNat - 48 : ℕ)) : K) / 100 = 0 := by
    norm_num [show ('0'.toNat - 48 : ℕ) = 0 from rfl]
  have hcz : camberSel (0 : K) (((c1.toNat - 48 : ℕ) : K) / 10) = fun _ => (0 : K) := by
    funext a
    simp [camberSel, camberFwd, camberAft]
  have hsz : slopeSel (0 : K) (((c1.toNat - 48 : ℕ) : K) / 10) = fun _ => (0 : K) := by
    funext a
    simp [slopeSel, slopeFwd, slopeAft]
  refine ⟨_, rfl, ?_, ?_, ?_, ?_⟩
  · rw [hm, hcz, List.map_const', linspace_length]
  · rw [hm, hsz, List.map_const', linspace_length]
  · rw [hm]
    refine List.map_congr_left fun a _ => ?_
    simp [hsz, hsin]
  · rw [hm, List.map_map]
    refine List.map_congr_left fun a _ => ?_
    simp [hcz, Function.comp]

/-- Witness for the amended claim C3: the symmetric designation `"0112"`
(second digit nonzero) with two chord samples, over `ℚ` with identity
stand-ins for the trigonometric routines (which satisfy `sin (atan 0) = 0`). -/
theorem symmetric_section_mirror_witness :
    ∃ out : NacaOutput ℚ,
      naca4_coordinates (K := ℚ) id id id id (String.mk ['0', '1', '1', '2']) 2 =
        .ok out ∧
      out.yc = List.replicate 2 0 ∧
      out.dyc_dx = List.replicate 2 0 ∧
      out.xu = out.xl ∧
      out.yu = out.yl.map (fun v => -v) :=
  symmetric_section_mirror id id id id rfl ['1', '2'] (by decide) (by decide)
    (by simp) (by decide) 2

/-- Claim C8: for every positive grid resolution `g`, `compute_flow_field`
returns five `g × g` arrays over the fixed domain `x ∈ [-0.5, 1.5]`,
`y ∈ [-0.8, 0.8]`: `X` repeats the row of `g` uniform x-samples (constant
along columns), `Y` repeats each of the `g` uniform y-samples across its row
(constant along rows), and the axis samples obey the uniform-spacing
formulas `-0.5 + 2i/(g-1)` and `-0.8 + 1.6i/(g-1)`. -/
theorem flow_grid_shape (sin cos sqrt : K → K) (pi : K) (s : FlowSolver K)
    {g : ℕ} (hg : 0 < g) :
    ∃ out : FlowOut K,
      FlowSolver.compute_flow_field sin cos sqrt pi s (g : ℤ) = .ok out ∧
      out.X = List.replicate g (linspace (-0.5 : K) 1.5 g) ∧
      out.Y = (linspace (-0.8 : K) 0.8 g).map (List.replicate g) ∧
      (out.X.length = g ∧ ∀ r ∈ out.X, r.length = g) ∧
      (out.Y.length = g ∧ ∀ r ∈ out.Y, r.length = g) ∧
      (out.U.length = g ∧ ∀ r ∈ out.U, r.length = g) ∧
      (out.V.length = g ∧ ∀ r ∈ out.V, r.length = g) ∧
      (out.Cp.length = g ∧ ∀ r ∈ out.Cp, r.length = g) ∧
      (∀ i : ℕ, i < g →
        (linspace (-0.5 : K) 1.5 g).getD i 0 = -0.5 + 2 * (i : K) / ((g : K) - 1) ∧
        (linspace (-0.8 : K) 0.8 g).getD i 0 = -0.8 + 1.6 * (i : K) / ((g : K) - 1)) := by
  simp only [FlowSolver.compute_flow_field,
    if_neg (not_lt.mpr (Int.natCast_nonneg g)), Int.toNat_natCast]
  have lxg : (linspace (-0.5 : K) 1.5 g).length = g := linspace_length ..
  have lyg : (linspace (-0.8 : K) 0.8 g).length = g := linspace_length ..
  have hX : ((linspace (-0.8 : K) 0.8 g).map fun _ => linspace (-0.5 : K) 1.5 g) =
      List.replicate g (linspace (-0.5 : K) 1.5 g) := by
    rw [List.map_const', lyg]
  have hY : ((linspace (-0.8 : K) 0.8 g).map fun yj =>
      (linspace (-0.5 : K) 1.5 g).map fun _ => yj) =
      (linspace (-0.8 : K) 0.8 g).map (List.replicate g) := by
    refine List.map_congr_left fun a _ => ?_
    rw [List.map_const', lxg]
  have rowsX : ∀ r ∈ (linspace (-0.8 : K) 0.8 g).map fun _ =>
      linspace (-0.5 : K) 1.5 g, r.length = g := by
    intro r hr
    simp only [List.mem_map] at hr
    obtain ⟨a, _, rfl⟩ := hr
    exact lxg
  have rowsY : ∀ r ∈ (linspace (-0.8 : K) 0.8 g).map fun yj =>
      (linspace (-0.5 : K) 1.5 g).map fun _ => yj, r.length = g := by
    intro r hr
    simp only [List.mem_map] at hr
    obtain ⟨a, _, rfl⟩ := hr
    simpa using lxg
  have lX : ((linspace (-0.8 : K) 0.8 g).map fun _ =>
      linspace (-0.5 : K) 1.5 g).length = g := by
    rw [List.length_map, lyg]
  have lY : ((linspace (-0.8 : K) 0.8 g).map fun yj =>
      (linspace (-0.5 : K) 1.5 g).map fun _ => yj).length = g := by
    rw [List.length_map, lyg]
  have lV2 : ∀ {A B : List (List K)} (f : K → K → K), A.length = g → B.length = g →
      (mat2 f A B).length = g := by
    intro A B f hA hB
    rw [length_mat2, hA, hB, min_self]
  have lU : ∀ {A : List (List K)} (f : K → K), A.length = g →
      (matMap f A).length = g := by
    intro A f hA
    rw [length_matMap, hA]
  refine ⟨_, rfl, hX, hY, ⟨lX, rowsX⟩, ⟨lY, rowsY⟩, ?_, ?_, ?_, ?_⟩
  · exact ⟨lU _ (lV2 _ lX lY), rows_matMap _ _ (rows_mat2 _ _ _ rowsX rowsY)⟩
  · exact ⟨lU _ (lV2 _ lX lY), rows_matMap _ _ (rows_mat2 _ _ _ rowsX rowsY)⟩
  · refine ⟨lU _ (lV2 _ (lU _ (lV2 _ lX lY)) (lU _ (lV2 _ lX lY))), ?_⟩
    exact rows_matMap _ _ (rows_mat2 _ _ _
      (rows_matMap _ _ (rows_mat2 _ _ _ rowsX rowsY))
      (rows_matMap _ _ (rows_mat2 _ _ _ rowsX rowsY)))
  · intro i hi
    constructor
    · rw [linspace_getD _ _ hi]
      norm_num
    · rw [linspace_getD _ _ hi]
      norm_num

/-- Witness for claim C8 at grid resolution `g = 2` over `ℚ` (identity
stand-ins for the trigonometric routines, an arbitrary rational in place of
`np.pi`). -/
theorem flow_grid_shape_witness :
    (0 : ℕ) < 2 ∧ ∃ out : FlowOut ℚ,
      FlowSolver.compute_flow_field id id id 3
        (FlowSolver.init 3 "4412" 6 1000000) ((2 : ℕ) : ℤ) = .ok out ∧
      out.X = List.replicate 2 (linspace (-0.5 : ℚ) 1.5 2) ∧
      out.Y = (linspace (-0.8 : ℚ) 0.8 2).map (List.replicate 2) ∧
      (out.X.length = 2 ∧ ∀ r ∈ out.X, r.length = 2) ∧
      (out.Y.length = 2 ∧ ∀ r ∈ out.Y, r.length = 2) ∧
      (out.U.length = 2 ∧ ∀ r ∈ out.U, r.length = 2) ∧
      (out.V.length = 2 ∧ ∀ r ∈ out.V, r.length = 2) ∧
      (out.Cp.length = 2 ∧ ∀ r ∈ out.Cp, r.length = 2) ∧
      (∀ i : ℕ, i < 2 →
        (linspace (-0.5 : ℚ) 1.5 2).getD i 0 =
          -0.5 + 2 * (i : ℚ) / (((2 : ℕ) : ℚ) - 1) ∧
        (linspace (-0.8 : ℚ) 0.8 2).getD i 0 =
          -0.8 + 1.6 * (i : ℚ) / (((2 : ℕ) : ℚ) - 1)) :=
  ⟨by decide, flow_grid_shape id id id 3
    (FlowSolver.init 3 "4412" 6 1000000) (by decide)⟩
